import Mathlib

/-!
Verification of the OMEGA6 Audio Visualizer against its specification.

The Python sources are shallowly embedded: numpy arrays become Lean lists or
index functions, dB values become rationals or reals, stateful widget objects
become explicit state records, and fallible operations take their outcome as
an explicit `Except` argument.
-/

namespace Omega6

/-! ### Audio capture queue (`src/src/audio_manager.py`, `AudioManager._audio_callback`)

`__init__` creates `queue.Queue(maxsize=100)`.  The stream callback does
`put_nowait`; on `queue.Full` it does one `get_nowait` (dropping the oldest
block) and retries the `put_nowait`.  The queue is FIFO, modelled as a list
with the oldest element at the head. -/

def audioQueueMaxsize : ℕ := 100

/-- One `_audio_callback` push: `put_nowait` appends when the queue is below
capacity; when full, one `get_nowait` removes the oldest block and the new
block is appended. -/
def pushDrop (C : ℕ) (q : List α) (x : α) : List α :=
  if q.length < C then q ++ [x] else q.drop 1 ++ [x]

/-- Pushing a whole sequence of captured blocks onto an initially empty queue. -/
def pushSeq (C : ℕ) (xs : List α) : List α :=
  xs.foldl (pushDrop C) []

/-! ### AudioManager device state (`src/src/audio_manager.py`) -/

/-- `AudioDevice` dataclass (latency is stored as milliseconds rather than a
formatted string). -/
structure AudioDevice where
  index : ℕ
  name : String
  channels : ℕ
  sampleRate : ℚ
  isInput : Bool
  isOutput : Bool
  isDefault : Bool
  latencyMs : ℚ
deriving DecidableEq

/-- One entry of the list returned by `sd.query_devices()`. -/
structure RawDevice where
  name : String
  maxInputChannels : ℕ
  maxOutputChannels : ℕ
  defaultSamplerate : ℚ
  defaultLowInputLatency : ℚ
deriving DecidableEq

/-- The outcome of the sounddevice enumeration calls inside the `try` block:
the queried device list plus `sd.default.device[0]` and `sd.default.device[1]`. -/
structure EnumResult where
  rawDevices : List RawDevice
  defaultInput : Option ℕ
  defaultOutput : Option ℕ

/-- The `AudioManager` fields touched by device enumeration and selection.
The capture stream, thread and audio queue live outside this record. -/
structure AudioManagerState where
  devices : List (ℕ × AudioDevice)
  currentInputDevice : Option ℕ
  currentOutputDevice : Option ℕ
deriving DecidableEq

/-- Substring test on character lists, for Python's `"pipewire" in name.lower()`. -/
def containsSub (needle : List Char) : List Char → Bool
  | [] => needle.isEmpty
  | c :: rest => needle.isPrefixOf (c :: rest) || containsSub needle rest

/-- Construction of one `AudioDevice` from a queried device entry, as in the
loop body of `refresh_devices`. -/
def mkAudioDevice (idx : ℕ) (r : RawDevice) (dIn dOut : Option ℕ) : AudioDevice :=
  { index := idx
    name := r.name
    channels := max r.maxInputChannels r.maxOutputChannels
    sampleRate := r.defaultSamplerate
    isInput := decide (0 < r.maxInputChannels)
    isOutput := decide (0 < r.maxOutputChannels)
    isDefault := decide (dIn = some idx ∨ dOut = some idx)
    latencyMs := r.defaultLowInputLatency * 1000 }

/-- The `for idx, device in self.devices.items()` loop that auto-selects the
first PipeWire input device. -/
def autoSelectPipewire (devs : List (ℕ × AudioDevice)) : Option ℕ :=
  (devs.find? fun p => containsSub "pipewire".data p.2.name.toLower.data && p.2.isInput).map
    Prod.fst

/-- `AudioManager.refresh_devices`.  `self.devices.clear()` runs before the
`try` block; an enumeration exception is caught and only logged. -/
def refreshDevices (st : AudioManagerState) (enum : Except Unit EnumResult) :
    AudioManagerState :=
  let cleared : AudioManagerState := { st with devices := [] }
  match enum with
  | .error _ => cleared
  | .ok r =>
    let devs := r.rawDevices.enum.map fun p =>
      (p.1, mkAudioDevice p.1 p.2 r.defaultInput r.defaultOutput)
    let st1 : AudioManagerState := { cleared with devices := devs }
    let st2 : AudioManagerState :=
      if st1.currentInputDevice = none then
        match autoSelectPipewire devs with
        | some idx => { st1 with currentInputDevice := some idx }
        | none =>
          match r.defaultInput with
          | some d => { st1 with currentInputDevice := some d }
          | none => st1
      else st1
    if st2.currentOutputDevice = none then
      match r.defaultOutput with
      | some d => { st2 with currentOutputDevice := some d }
      | none => st2
    else st2

/-- Python's `device_index in self.devices and self.devices[device_index].is_input`. -/
def isValidInputDevice (st : AudioManagerState) (idx : ℕ) : Bool :=
  match st.devices.lookup idx with
  | some d => d.isInput
  | none => false

/-- `AudioManager.set_input_device`.  The capture restart in the success branch
acts on the stream and queue, which are outside `AudioManagerState`. -/
def setInputDevice (st : AudioManagerState) (idx : ℕ) : AudioManagerState × Bool :=
  match st.devices.lookup idx with
  | some d =>
    if d.isInput then ({ st with currentInputDevice := some idx }, true)
    else (st, false)
  | none => (st, false)

/-! ### Studio meters state (`src/plugins/studio_meters/studio_meters_widget.py`)

Loudness values in dB/LUFS are modelled as rationals.  Only the fields touched
by the weighting/gating/reset controls and by the integrated-loudness update
appear in the record; the remaining meter fields and the Qt widgets are
irrelevant to those operations. -/

def weightingModes : List String := ["K", "A", "C", "Z"]

structure StudioMetersState where
  currentWeighting : ℕ
  gated : Bool
  lufsHistory : List ℚ
  lufsIntegrated : ℚ
deriving DecidableEq

/-- `np.mean` of a list of loudness values. -/
def mean (l : List ℚ) : ℚ := l.sum / l.length

/-- `StudioMetersWidget._reset_meters`. -/
def resetMeters (s : StudioMetersState) : StudioMetersState :=
  { s with lufsHistory := [], lufsIntegrated := -100 }

/-- `StudioMetersWidget._cycle_weighting`. -/
def cycleWeighting (s : StudioMetersState) : StudioMetersState :=
  { s with currentWeighting := (s.currentWeighting + 1) % weightingModes.length }

/-- `StudioMetersWidget._toggle_gating` (`checked` is the button state). -/
def toggleGating (checked : Bool) (s : StudioMetersState) : StudioMetersState :=
  resetMeters { s with gated := checked }

/-- The integrated-loudness step at the end of `_calculate_lufs`:
gated mean when gating is on and the history holds more than 10 samples
(and at least one value passes the −70 gate), otherwise the plain mean of a
nonempty history. -/
def updateIntegrated (s : StudioMetersState) : StudioMetersState :=
  if s.gated = true ∧ 10 < s.lufsHistory.length then
    if s.lufsHistory.filter (fun v => decide (-70 < v)) = [] then s
    else { s with lufsIntegrated := mean (s.lufsHistory.filter fun v => decide (-70 < v)) }
  else if s.lufsHistory = [] then s
  else { s with lufsIntegrated := mean s.lufsHistory }

/-! ### `np.max` over a nonempty array -/

/-- `np.max` of a list of reals (0 for the empty list, which numpy rejects). -/
noncomputable def listMax : List ℝ → ℝ
  | [] => 0
  | h :: t => t.foldl max h

/-! ### Enhanced spectrum widget
(`src/plugins/enhanced_spectrum/spectrum_widget.py`)

The per-bar numpy arrays `spectrum_data`, `peak_data`, `peak_timestamps` and
`bin_edges` are modelled as index functions `ℕ → ℝ`; numpy's vectorised
operations act pointwise on them. -/

structure SpectrumState where
  numBars : ℕ
  binEdges : ℕ → ℝ
  dbFloor : ℝ
  averagingFactor : ℝ
  showPeakHold : Bool
  peakHoldTime : ℝ
  spectrumData : ℕ → ℝ
  peakData : ℕ → ℝ
  peakTimestamps : ℕ → ℝ

/-- dB conversion of one magnitude: `20 * np.log10(np.maximum(m, 1e-10))`. -/
noncomputable def dbOf (x : ℝ) : ℝ := 20 * Real.logb 10 (max x (1 / 10 ^ 10))

/-- `db_data = 20 * np.log10(np.maximum(np.abs(fft_data), 1e-10))`. -/
noncomputable def dbData (fft : List ℝ) : List ℝ := fft.map fun v => dbOf |v|

/-- `db_data[freq_mask]` for display bar `i`: the dB values whose parallel
frequency lies in `[bin_edges[i], bin_edges[i+1])`. -/
noncomputable def binSelect (st : SpectrumState) (fft freqs : List ℝ) (i : ℕ) : List ℝ :=
  ((freqs.zip (dbData fft)).filter fun p =>
      decide (st.binEdges i ≤ p.1 ∧ p.1 < st.binEdges (i + 1))).map Prod.snd

/-- `new_spectrum[i]`: initialised to the dB floor by `np.full`, overwritten
with `np.max(db_data[freq_mask])` when the mask selects anything. -/
noncomputable def newSpectrumRaw (st : SpectrumState) (fft freqs : List ℝ) (i : ℕ) : ℝ :=
  if binSelect st fft freqs i = [] then st.dbFloor
  else listMax (binSelect st fft freqs i)

/-- The averaging line:
`spectrum_data = averaging_factor * spectrum_data + (1 - averaging_factor) * new_spectrum`. -/
noncomputable def specAt (st : SpectrumState) (fft freqs : List ℝ) (i : ℕ) : ℝ :=
  st.averagingFactor * st.spectrumData i +
    (1 - st.averagingFactor) * newSpectrumRaw st fft freqs i

/-- `peak_data[peak_mask] = spectrum_data[peak_mask]` where
`peak_mask = spectrum_data > peak_data`. -/
noncomputable def peakRaise (st : SpectrumState) (fft freqs : List ℝ) (i : ℕ) : ℝ :=
  if st.peakData i < specAt st fft freqs i then specAt st fft freqs i else st.peakData i

/-- `peak_timestamps[peak_mask] = current_time`. -/
noncomputable def tsRaise (st : SpectrumState) (fft freqs : List ℝ) (now : ℝ) (i : ℕ) : ℝ :=
  if st.peakData i < specAt st fft freqs i then now else st.peakTimestamps i

/-- `peak_data[old_peaks] *= 0.95` where
`old_peaks = (current_time - peak_timestamps) > peak_hold_time`. -/
noncomputable def peakDecay (st : SpectrumState) (fft freqs : List ℝ) (now : ℝ) (i : ℕ) : ℝ :=
  if st.peakHoldTime < now - tsRaise st fft freqs now i then
    0.95 * peakRaise st fft freqs i
  else peakRaise st fft freqs i

/-- `peak_data = np.maximum(peak_data, spectrum_data)`. -/
noncomputable def peakClamp (st : SpectrumState) (fft freqs : List ℝ) (now : ℝ) (i : ℕ) : ℝ :=
  max (peakDecay st fft freqs now i) (specAt st fft freqs i)

/-- `EnhancedSpectrumWidget.process_fft` (display update and logging omitted). -/
noncomputable def processFFT (st : SpectrumState) (fft freqs : List ℝ) (now : ℝ) :
    SpectrumState :=
  if fft = [] then st
  else if st.showPeakHold then
    { st with
        spectrumData := specAt st fft freqs
        peakData := peakClamp st fft freqs now
        peakTimestamps := tsRaise st fft freqs now }
  else { st with spectrumData := specAt st fft freqs }

/-! ### Frequency bin edges (`create_frequency_bins`)

`np.logspace(log_min, log_max, num_bars + 1)` is
`10 ** np.linspace(log_min, log_max, num_bars + 1)`, and
`np.linspace(a, b, N)` places point `k` at `a + k*(b-a)/(N-1)`. -/

noncomputable def createFrequencyBins (minFreq maxFreq : ℝ) (numBars : ℕ) : ℕ → ℝ :=
  fun k =>
    (10 : ℝ) ^ (Real.logb 10 minFreq +
      (k : ℝ) * ((Real.logb 10 maxFreq - Real.logb 10 minFreq) / (numBars : ℝ)))

/-- The stored `bin_edges` array. -/
noncomputable def frequencyBinEdges (minFreq maxFreq : ℝ) (numBars : ℕ) : List ℝ :=
  (List.range (numBars + 1)).map (createFrequencyBins minFreq maxFreq numBars)

/-- The widget state as set up by `EnhancedSpectrumWidget.__init__` together
with `create_frequency_bins`. -/
noncomputable def initSpectrumState : SpectrumState :=
  { numBars := 256
    binEdges := createFrequencyBins 20 20000 256
    dbFloor := -80
    averagingFactor := 0.8
    showPeakHold := true
    peakHoldTime := 3
    spectrumData := fun _ => 0
    peakData := fun _ => 0
    peakTimestamps := fun _ => 0 }

/-! ### Studio meter level computations
(`src/plugins/studio_meters/studio_meters_widget.py`) -/

/-- `StudioMetersWidget._calculate_rms`. -/
noncomputable def calculateRMS (data : List ℝ) : ℝ :=
  if data = [] then -100
  else 20 * Real.logb 10
    (max (Real.sqrt ((data.map fun x => x ^ 2).sum / (data.length : ℝ))) (1 / 10 ^ 10))

/-- `np.interp(x, np.arange(len(data)), data)`: clamped linear interpolation
with sample `k` at abscissa `k`. -/
noncomputable def interpAt (data : List ℝ) (x : ℝ) : ℝ :=
  if data = [] then 0
  else if x ≤ 0 then data.headD 0
  else if ((data.length : ℝ) - 1) ≤ x then data.getLastD 0
  else
    data.getD (⌊x⌋.toNat) 0 +
      (x - ((⌊x⌋.toNat : ℕ) : ℝ)) * (data.getD (⌊x⌋.toNat + 1) 0 - data.getD (⌊x⌋.toNat) 0)

/-- `np.abs` of the 4× oversampled block: query points are
`np.linspace(0, len(data), len(data) * 4)`, i.e. point `k` sits at
`k * len(data) / (4 * len(data) - 1)`. -/
noncomputable def oversampledAbs (data : List ℝ) : List ℝ :=
  (List.range (4 * data.length)).map fun (k : ℕ) =>
    |interpAt data ((k : ℝ) * (data.length : ℝ) / (((4 * data.length : ℕ) : ℝ) - 1))|

/-- `StudioMetersWidget._calculate_true_peak` (the sample-rate argument is
unused by the computation). -/
noncomputable def calculateTruePeak (data : List ℝ) : ℝ :=
  if data = [] then -100
  else 20 * Real.logb 10 (max (listMax (oversampledAbs data)) (1 / 10 ^ 10))

/-- The plain per-sample peak `np.max(np.abs(data))`, for comparison. -/
noncomputable def sampleMaxAbs (data : List ℝ) : ℝ := listMax (data.map fun x => |x|)

/-! ### Concrete states used by witnesses and counterexamples -/

def sampleDevice : AudioDevice :=
  { index := 0, name := "USB Mic", channels := 2, sampleRate := 48000
    isInput := true, isOutput := false, isDefault := true, latencyMs := 0 }

def amWithDevice : AudioManagerState :=
  { devices := [(0, sampleDevice)], currentInputDevice := some 0,
    currentOutputDevice := none }

def histTenC6 : List ℚ := List.replicate 5 (-80) ++ List.replicate 5 (-10)

def stateTenC6 : StudioMetersState :=
  { currentWeighting := 0, gated := true, lufsHistory := histTenC6,
    lufsIntegrated := -100 }

def histElevenC6 : List ℚ := List.replicate 5 (-80) ++ List.replicate 6 (-10)

def stateElevenC6 : StudioMetersState :=
  { currentWeighting := 0, gated := true, lufsHistory := histElevenC6,
    lufsIntegrated := -100 }

def stateHistC8 : StudioMetersState :=
  { currentWeighting := 0, gated := true, lufsHistory := [-10, -20],
    lufsIntegrated := -15 }

/-! ### Helper lemmas on the queue -/

theorem pushDrop_length_le {C : ℕ} (hC : 0 < C) (q : List α) (x : α)
    (h : q.length ≤ C) : (pushDrop C q x).length ≤ C := by
  unfold pushDrop
  split
  · simpa using by omega
  · simp only [List.length_append, List.length_drop, List.length_cons,
      List.length_nil]
    omega

theorem pushSeq_eq_drop {C : ℕ} (hC : 0 < C) (xs : List α) :
    pushSeq C xs = xs.drop (xs.length - C) := by
  induction xs using List.reverseRecOn with
  | nil => simp [pushSeq]
  | append_singleton ys y ih =>
    have hstep : pushSeq C (ys ++ [y]) = pushDrop C (pushSeq C ys) y := by
      simp [pushSeq, List.foldl_append]
    rw [hstep, ih]
    by_cases hlen : ys.length < C
    · have h0 : ys.length - C = 0 := by omega
      have h0' : (ys ++ [y]).length - C = 0 := by
        simp only [List.length_append, List.length_cons, List.length_nil]
        omega
      rw [h0, h0', List.drop_zero, List.drop_zero, pushDrop, if_pos (by simpa using hlen)]
    · have hCle : C ≤ ys.length := by omega
      have hdl : (ys.drop (ys.length - C)).length = C := by
        simp only [List.length_drop]
        omega
      rw [pushDrop, if_neg (by rw [hdl]; omega)]
      rw [List.drop_drop]
      have harith : ys.length - C + 1 = (ys ++ [y]).length - C := by
        simp only [List.length_append, List.length_cons, List.length_nil]
        omega
      rw [harith, List.drop_append_of_le_length (by simp; omega)]

/-! ### Generic helpers for `np.max`-style folds -/

theorem le_foldl_max [LinearOrder β] (l : List β) (a : β) : a ≤ l.foldl max a := by
  induction l generalizing a with
  | nil => exact le_refl a
  | cons b t ih => exact le_trans (le_max_left a b) (ih (max a b))

theorem mem_le_foldl_max [LinearOrder β] (l : List β) (a : β) (x : β) (hx : x ∈ l) :
    x ≤ l.foldl max a := by
  induction l generalizing a with
  | nil => cases hx
  | cons b t ih =>
    rcases List.mem_cons.mp hx with h | h
    · subst h
      rw [List.foldl_cons]
      exact le_trans (le_max_right a x) (le_foldl_max t (max a x))
    · exact ih (max a b) h

theorem foldl_max_mem [LinearOrder β] (l : List β) (a : β) :
    l.foldl max a = a ∨ l.foldl max a ∈ l := by
  induction l generalizing a with
  | nil => exact Or.inl rfl
  | cons b t ih =>
    rcases ih (max a b) with h | h
    · rcases max_choice a b with hab | hab
      · exact Or.inl (by rw [List.foldl_cons, h, hab])
      · exact Or.inr (by rw [List.foldl_cons, h, hab]; exact List.mem_cons_self b t)
    · exact Or.inr (List.mem_cons_of_mem b h)

theorem foldl_max_le [LinearOrder β] (l : List β) (a M : β) (ha : a ≤ M)
    (hl : ∀ x ∈ l, x ≤ M) : l.foldl max a ≤ M := by
  induction l generalizing a with
  | nil => exact ha
  | cons b t ih =>
    exact ih (max a b) (max_le ha (hl b (List.mem_cons_self b t)))
      fun x hx => hl x (List.mem_cons_of_mem b hx)

theorem le_listMax (l : List ℝ) (x : ℝ) (hx : x ∈ l) : x ≤ listMax l := by
  cases l with
  | nil => cases hx
  | cons h t =>
    show x ≤ t.foldl max h
    rcases List.mem_cons.mp hx with he | he
    · exact he ▸ le_foldl_max t h
    · exact mem_le_foldl_max t h x he

theorem listMax_mem (l : List ℝ) (hl : l ≠ []) : listMax l ∈ l := by
  cases l with
  | nil => exact absurd rfl hl
  | cons h t =>
    show t.foldl max h ∈ h :: t
    rcases foldl_max_mem t h with he | he
    · rw [he]
      exact List.mem_cons_self h t
    · exact List.mem_cons_of_mem h he

theorem listMax_le (l : List ℝ) (M : ℝ) (hne : l ≠ []) (h : ∀ x ∈ l, x ≤ M) :
    listMax l ≤ M := by
  cases l with
  | nil => exact absurd rfl hne
  | cons a t =>
    show t.foldl max a ≤ M
    exact foldl_max_le t a M (h a (List.mem_cons_self a t))
      fun x hx => h x (List.mem_cons_of_mem a hx)

/-! ### dB arithmetic helpers -/

theorem logb_ten_eps : Real.logb 10 (1 / 10 ^ 10 : ℝ) = -10 := by
  have h : (1 / 10 ^ 10 : ℝ) = (10 : ℝ) ^ (((-10 : ℤ) : ℝ)) := by
    rw [Real.rpow_intCast]
    norm_num
  rw [h, Real.logb_rpow (by norm_num) (by norm_num)]
  norm_num

/-! ### Spectrum widget helpers -/

theorem binSelect_eq (st : SpectrumState) (fft freqs : List ℝ) (i : ℕ) :
    binSelect st fft freqs i =
      ((freqs.zip fft).filter fun p =>
        decide (st.binEdges i ≤ p.1 ∧ p.1 < st.binEdges (i + 1))).map
        fun p => dbOf |p.2| := by
  rw [binSelect, dbData, List.zip_map_right, List.filter_map, List.map_map]
  rfl

theorem processFFT_spectrumData (st : SpectrumState) (fft freqs : List ℝ) (now : ℝ)
    (hne : fft ≠ []) :
    (processFFT st fft freqs now).spectrumData = specAt st fft freqs := by
  rw [processFFT, if_neg hne]
  by_cases h : st.showPeakHold = true
  · rw [if_pos h]
  · rw [if_neg h]

theorem processFFT_peakData (st : SpectrumState) (fft freqs : List ℝ) (now : ℝ)
    (hne : fft ≠ []) (hpk : st.showPeakHold = true) :
    (processFFT st fft freqs now).peakData = peakClamp st fft freqs now := by
  rw [processFFT, if_neg hne, if_pos hpk]

/-! ### True-peak helpers -/

theorem abs_interpAt_le (data : List ℝ) (hne : data ≠ []) (x : ℝ) :
    |interpAt data x| ≤ sampleMaxAbs data := by
  have hmem : ∀ y ∈ data, |y| ≤ sampleMaxAbs data := fun y hy =>
    le_listMax _ _ (List.mem_map_of_mem _ hy)
  rw [interpAt, if_neg hne]
  by_cases h0 : x ≤ 0
  · rw [if_pos h0]
    obtain ⟨h, t, rfl⟩ := List.exists_cons_of_ne_nil hne
    exact hmem h (List.mem_cons_self h t)
  · rw [if_neg h0]
    by_cases h1 : ((data.length : ℝ) - 1) ≤ x
    · rw [if_pos h1]
      obtain ⟨h, t, rfl⟩ := List.exists_cons_of_ne_nil hne
      rw [List.getLastD_cons]
      exact hmem _ (List.getLastD_mem_cons t h)
    · rw [if_neg h1]
      push_neg at h0 h1
      have hfl0 : 0 ≤ ⌊x⌋ := Int.floor_nonneg.mpr (le_of_lt h0)
      have hjr : ((⌊x⌋.toNat : ℕ) : ℝ) = ((⌊x⌋ : ℤ) : ℝ) := by
        exact_mod_cast congrArg Int.cast (Int.toNat_of_nonneg hfl0)
      have hjx : ((⌊x⌋.toNat : ℕ) : ℝ) ≤ x := by
        rw [hjr]; exact Int.floor_le x
      have hxj1 : x < ((⌊x⌋.toNat : ℕ) : ℝ) + 1 := by
        rw [hjr]; exact_mod_cast Int.lt_floor_add_one x
      have hjn : ((⌊x⌋.toNat : ℕ) : ℝ) < (data.length : ℝ) - 1 := lt_of_le_of_lt hjx h1
      have hj1n : ⌊x⌋.toNat + 1 < data.length := by
        have : ((⌊x⌋.toNat : ℕ) : ℝ) + 1 < (data.length : ℝ) := by linarith
        exact_mod_cast this
      have hjn' : ⌊x⌋.toNat < data.length := by omega
      have ha : data.getD (⌊x⌋.toNat) 0 ∈ data := by
        rw [List.getD_eq_getElem _ _ hjn']
        exact List.getElem_mem hjn'
      have hb : data.getD (⌊x⌋.toNat + 1) 0 ∈ data := by
        rw [List.getD_eq_getElem _ _ hj1n]
        exact List.getElem_mem hj1n
      have hA := hmem _ ha
      have hB := hmem _ hb
      have ht0 : 0 ≤ x - ((⌊x⌋.toNat : ℕ) : ℝ) := by linarith
      have ht1 : x - ((⌊x⌋.toNat : ℕ) : ℝ) ≤ 1 := by linarith
      have heq : data.getD (⌊x⌋.toNat) 0 +
          (x - ((⌊x⌋.toNat : ℕ) : ℝ)) *
            (data.getD (⌊x⌋.toNat + 1) 0 - data.getD (⌊x⌋.toNat) 0) =
          (1 - (x - ((⌊x⌋.toNat : ℕ) : ℝ))) * data.getD (⌊x⌋.toNat) 0 +
            (x - ((⌊x⌋.toNat : ℕ) : ℝ)) * data.getD (⌊x⌋.toNat + 1) 0 := by
        ring
      rw [heq]
      calc |(1 - (x - ((⌊x⌋.toNat : ℕ) : ℝ))) * data.getD (⌊x⌋.toNat) 0 +
            (x - ((⌊x⌋.toNat : ℕ) : ℝ)) * data.getD (⌊x⌋.toNat + 1) 0|
          ≤ |(1 - (x - ((⌊x⌋.toNat : ℕ) : ℝ))) * data.getD (⌊x⌋.toNat) 0| +
            |(x - ((⌊x⌋.toNat : ℕ) : ℝ)) * data.getD (⌊x⌋.toNat + 1) 0| := abs_add _ _
        _ = (1 - (x - ((⌊x⌋.toNat : ℕ) : ℝ))) * |data.getD (⌊x⌋.toNat) 0| +
            (x - ((⌊x⌋.toNat : ℕ) : ℝ)) * |data.getD (⌊x⌋.toNat + 1) 0| := by
            rw [abs_mul, abs_mul, abs_of_nonneg (by linarith), abs_of_nonneg ht0]
        _ ≤ (1 - (x - ((⌊x⌋.toNat : ℕ) : ℝ))) * sampleMaxAbs data +
            (x - ((⌊x⌋.toNat : ℕ) : ℝ)) * sampleMaxAbs data := by
            exact add_le_add (mul_le_mul_of_nonneg_left hA (by linarith))
              (mul_le_mul_of_nonneg_left hB ht0)
        _ = sampleMaxAbs data := by ring

/-! ### Claim theorems -/

/-- Claim C1 — for every capacity `C > 0` and push sequence longer than `C`,
the capture queue never holds more than `C` items at any point of the
sequence; a push onto a full queue evicts exactly the oldest entry before
inserting; and afterwards the queue holds exactly the `C` most recently pushed
blocks in arrival order. -/
theorem audio_queue_bounded_evicts_oldest {α : Type} (C : ℕ) (xs : List α)
    (hC : 0 < C) (hlong : C < xs.length) :
    (∀ pre suf : List α, xs = pre ++ suf → (pushSeq C pre).length ≤ C) ∧
    (∀ (q : List α) (x : α), q.length = C → pushDrop C q x = q.drop 1 ++ [x]) ∧
    pushSeq C xs = xs.drop (xs.length - C) ∧
    (pushSeq C xs).length = C := by
  have hdrop : ∀ ys : List α, pushSeq C ys = ys.drop (ys.length - C) :=
    fun ys => pushSeq_eq_drop hC ys
  refine ⟨?_, ?_, hdrop xs, ?_⟩
  · intro pre _ _
    rw [hdrop pre, List.length_drop]
    omega
  · intro q x hq
    rw [pushDrop, if_neg (by omega)]
  · rw [hdrop xs, List.length_drop]
    omega

/-- Witness for C1 at the constructed capacity 100 and a 101-block-long push
sequence. -/
theorem audio_queue_bounded_evicts_oldest_witness :
    0 < audioQueueMaxsize ∧ audioQueueMaxsize < (List.range 101).length ∧
    pushSeq audioQueueMaxsize (List.range 101) = (List.range 101).drop 1 := by
  refine ⟨by decide, by simp [audioQueueMaxsize], ?_⟩
  have h := audio_queue_bounded_evicts_oldest audioQueueMaxsize (List.range 101)
    (by decide) (by simp [audioQueueMaxsize])
  simpa [audioQueueMaxsize] using h.2.2.1

/-- Claim C2 — with peak hold on, after `process_fft` every bin's peak is at
least its displayed (averaged) level; and a peak that was not raised this
update and whose age exceeds the hold time (3 s by construction) is first
multiplied by 0.95 and only then clamped up to the current level. -/
theorem peak_hold_decay_then_clamp (st : SpectrumState) (fft freqs : List ℝ) (now : ℝ)
    (hpk : st.showPeakHold = true) (hne : fft ≠ []) :
    initSpectrumState.peakHoldTime = 3 ∧
    (∀ i, (processFFT st fft freqs now).spectrumData i ≤
      (processFFT st fft freqs now).peakData i) ∧
    (∀ i, specAt st fft freqs i ≤ st.peakData i →
      st.peakHoldTime < now - st.peakTimestamps i →
      (processFFT st fft freqs now).peakData i =
        max (0.95 * st.peakData i) (specAt st fft freqs i)) := by
  have hs := processFFT_spectrumData st fft freqs now hne
  have hp := processFFT_peakData st fft freqs now hne hpk
  refine ⟨rfl, ?_, ?_⟩
  · intro i
    rw [hs, hp]
    simp only [peakClamp]
    exact le_max_right _ _
  · intro i hle hold
    rw [hp]
    have h1 : ¬(st.peakData i < specAt st fft freqs i) := not_lt.mpr hle
    simp only [peakClamp, peakDecay, peakRaise, tsRaise, if_neg h1]
    rw [if_pos hold]

/-- Witness for C2 on the initial widget state with a one-sample FFT frame. -/
theorem peak_hold_decay_then_clamp_witness :
    initSpectrumState.showPeakHold = true ∧ ([(1 : ℝ)] ≠ []) ∧
    (initSpectrumState.peakHoldTime = 3 ∧
     (∀ i, (processFFT initSpectrumState [1] [100] 0).spectrumData i ≤
       (processFFT initSpectrumState [1] [100] 0).peakData i) ∧
     (∀ i, specAt initSpectrumState [1] [100] i ≤ initSpectrumState.peakData i →
       initSpectrumState.peakHoldTime < 0 - initSpectrumState.peakTimestamps i →
       (processFFT initSpectrumState [1] [100] 0).peakData i =
         max (0.95 * initSpectrumState.peakData i)
           (specAt initSpectrumState [1] [100] i))) :=
  ⟨rfl, by simp, peak_hold_decay_then_clamp initSpectrumState [1] [100] 0 rfl (by simp)⟩

/-- Claim C3 counterexample — starting from a state with one enumerated
device, a failing enumeration does not leave the previous device list intact:
`refresh_devices` clears the list before the `try` block. -/
theorem refreshDevices_error_not_intact :
    (refreshDevices amWithDevice (.error ())).devices ≠ amWithDevice.devices := by
  decide

/-- Claim C3 (amended) — if enumeration throws, `refresh_devices` swallows the
exception and returns normally, but the device list has already been cleared,
so it ends up empty (not the stale list); the current input/output selections
are unchanged. -/
theorem refreshDevices_error_silent (st : AudioManagerState) :
    (refreshDevices st (.error ())).devices = [] ∧
    (refreshDevices st (.error ())).currentInputDevice = st.currentInputDevice ∧
    (refreshDevices st (.error ())).currentOutputDevice = st.currentOutputDevice :=
  ⟨rfl, rfl, rfl⟩

/-- Claim C4 — `process_fft` is a no-op on an empty frame; otherwise every
bin's new raw value is the maximum dB (`20·log10(max(|mag|, 1e-10))`) over the
frequency-domain samples falling in `[edge[i], edge[i+1])`, the configured
floor when the bin is empty, and the displayed level follows the exponential
moving average with the widget's averaging factor (0.8 by construction). -/
theorem process_fft_bins_and_averaging (st : SpectrumState) (fft freqs : List ℝ)
    (now : ℝ) (hne : fft ≠ []) :
    processFFT st [] freqs now = st ∧
    initSpectrumState.averagingFactor = 0.8 ∧
    (∀ i, (processFFT st fft freqs now).spectrumData i =
      st.averagingFactor * st.spectrumData i +
        (1 - st.averagingFactor) * newSpectrumRaw st fft freqs i) ∧
    (∀ i,
      (∀ p ∈ freqs.zip fft, st.binEdges i ≤ p.1 → p.1 < st.binEdges (i + 1) →
        dbOf |p.2| ≤ newSpectrumRaw st fft freqs i) ∧
      ((∃ p ∈ freqs.zip fft, st.binEdges i ≤ p.1 ∧ p.1 < st.binEdges (i + 1)) →
        ∃ p ∈ freqs.zip fft, (st.binEdges i ≤ p.1 ∧ p.1 < st.binEdges (i + 1)) ∧
          newSpectrumRaw st fft freqs i = dbOf |p.2|) ∧
      ((∀ p ∈ freqs.zip fft, ¬(st.binEdges i ≤ p.1 ∧ p.1 < st.binEdges (i + 1))) →
        newSpectrumRaw st fft freqs i = st.dbFloor)) := by
  refine ⟨by rw [processFFT, if_pos rfl], rfl, ?_, ?_⟩
  · intro i
    rw [processFFT_spectrumData st fft freqs now hne]
    rfl
  · intro i
    refine ⟨?_, ?_, ?_⟩
    · intro p hp hlo hhi
      have hmem : dbOf |p.2| ∈ binSelect st fft freqs i := by
        rw [binSelect_eq]
        exact List.mem_map_of_mem _ (List.mem_filter.mpr ⟨hp, by simp [hlo, hhi]⟩)
      have hsel : binSelect st fft freqs i ≠ [] := List.ne_nil_of_mem hmem
      rw [newSpectrumRaw, if_neg hsel]
      exact le_listMax _ _ hmem
    · rintro ⟨p, hp, hpred⟩
      have hmem : dbOf |p.2| ∈ binSelect st fft freqs i := by
        rw [binSelect_eq]
        exact List.mem_map_of_mem _ (List.mem_filter.mpr ⟨hp, by simpa using hpred⟩)
      have hsel : binSelect st fft freqs i ≠ [] := List.ne_nil_of_mem hmem
      rw [newSpectrumRaw, if_neg hsel]
      have hmx := listMax_mem _ hsel
      rw [binSelect_eq] at hmx
      obtain ⟨q, hq, hfq⟩ := List.mem_map.mp hmx
      have hq' := List.mem_filter.mp hq
      refine ⟨q, hq'.1, by simpa using hq'.2, ?_⟩
      rw [binSelect_eq]
      exact hfq.symm
    · intro hall
      have hsel : binSelect st fft freqs i = [] := by
        rw [binSelect_eq, List.map_eq_nil_iff, List.filter_eq_nil_iff]
        intro p hp
        simpa using hall p hp
      rw [newSpectrumRaw, if_pos hsel]

/-- Witness for C4 on the initial widget state with a one-sample FFT frame. -/
theorem process_fft_bins_and_averaging_witness :
    ([(2 : ℝ)] ≠ []) ∧
    processFFT initSpectrumState [] [50] 0 = initSpectrumState ∧
    initSpectrumState.averagingFactor = 0.8 ∧
    (∀ i, (processFFT initSpectrumState [2] [50] 0).spectrumData i =
      initSpectrumState.averagingFactor * initSpectrumState.spectrumData i +
        (1 - initSpectrumState.averagingFactor) *
          newSpectrumRaw initSpectrumState [2] [50] i) := by
  have h := process_fft_bins_and_averaging initSpectrumState [2] [50] 0 (by simp)
  exact ⟨by simp, h.1, h.2.1, h.2.2.1⟩

/-- Claim C5 — for every configuration with `0 < min_freq < max_freq` and at
least one bar, the computed bin edges are `num_bars + 1` many, strictly
increasing, and run exactly from `min_freq` to `max_freq`. -/
theorem frequency_bins_log_spaced (minFreq maxFreq : ℝ) (numBars : ℕ)
    (hmin : 0 < minFreq) (hlt : minFreq < maxFreq) (hn : 0 < numBars) :
    (frequencyBinEdges minFreq maxFreq numBars).length = numBars + 1 ∧
    (∀ i j : ℕ, i < j →
      createFrequencyBins minFreq maxFreq numBars i <
        createFrequencyBins minFreq maxFreq numBars j) ∧
    createFrequencyBins minFreq maxFreq numBars 0 = minFreq ∧
    createFrequencyBins minFreq maxFreq numBars numBars = maxFreq := by
  have hb1 : (1 : ℝ) < 10 := by norm_num
  have hmax : 0 < maxFreq := lt_trans hmin hlt
  have hstep : 0 < (Real.logb 10 maxFreq - Real.logb 10 minFreq) / (numBars : ℝ) := by
    have hlog : Real.logb 10 minFreq < Real.logb 10 maxFreq :=
      Real.logb_lt_logb hb1 hmin hlt
    have hnr : (0 : ℝ) < (numBars : ℝ) := by exact_mod_cast hn
    exact div_pos (by linarith) hnr
  refine ⟨by simp [frequencyBinEdges], ?_, ?_, ?_⟩
  · intro i j hij
    simp only [createFrequencyBins]
    rw [Real.rpow_lt_rpow_left_iff hb1]
    have hcast : (i : ℝ) < (j : ℝ) := by exact_mod_cast hij
    have := mul_lt_mul_of_pos_right hcast hstep
    linarith
  · rw [createFrequencyBins]
    norm_num
    exact Real.rpow_logb (by norm_num) (by norm_num) hmin
  · rw [createFrequencyBins]
    have hnr : ((numBars : ℕ) : ℝ) ≠ 0 := by
      exact_mod_cast Nat.pos_iff_ne_zero.mp hn
    rw [mul_div_assoc']
    rw [mul_comm ((numBars : ℕ) : ℝ) _, mul_div_assoc, div_self hnr, mul_one]
    have hsum : Real.logb 10 minFreq + (Real.logb 10 maxFreq - Real.logb 10 minFreq) =
        Real.logb 10 maxFreq := by ring
    rw [hsum]
    exact Real.rpow_logb (by norm_num) (by norm_num) hmax

/-- Witness for C5 at the widget's default configuration: 20 Hz – 20 kHz with
64 bars. -/
theorem frequency_bins_log_spaced_witness :
    (0 : ℝ) < 20 ∧ (20 : ℝ) < 20000 ∧ 0 < 64 ∧
    (frequencyBinEdges 20 20000 64).length = 64 + 1 ∧
    createFrequencyBins 20 20000 64 0 = 20 ∧
    createFrequencyBins 20 20000 64 64 = 20000 := by
  have h := frequency_bins_log_spaced 20 20000 64 (by norm_num) (by norm_num) (by norm_num)
  exact ⟨by norm_num, by norm_num, by norm_num, h.1, h.2.2.1, h.2.2.2⟩

/-- Claim C6 counterexample — with gating enabled and a history of exactly
10 values (5 below the −70 gate, 5 above), the integrated loudness is the
plain mean of all 10 values (−45), not the mean of the 5 above-gate values
(−10): the gated branch requires strictly more than 10 samples. -/
theorem integrated_ten_samples_not_gated :
    (updateIntegrated stateTenC6).lufsIntegrated = -45 ∧
    mean (histTenC6.filter fun v => decide (-70 < v)) = -10 ∧
    ((-45 : ℚ) ≠ -10) := by
  have h1 : ¬(stateTenC6.gated = true ∧ 10 < stateTenC6.lufsHistory.length) := by
    simp [stateTenC6, histTenC6]
  have h2 : ¬(stateTenC6.lufsHistory = []) := by simp [stateTenC6, histTenC6]
  have hupd : updateIntegrated stateTenC6 =
      { stateTenC6 with lufsIntegrated := mean stateTenC6.lufsHistory } := by
    rw [updateIntegrated, if_neg h1, if_neg h2]
  refine ⟨?_, ?_, by norm_num⟩
  · rw [hupd]
    show mean stateTenC6.lufsHistory = -45
    norm_num [mean, stateTenC6, histTenC6, List.sum_append, List.sum_replicate]
  · have hfil : histTenC6.filter (fun v => decide (-70 < v)) = List.replicate 5 (-10) := by
      decide
    rw [hfil]
    norm_num [mean, List.sum_replicate]

/-- Claim C6 (amended) — with gating enabled and a history of more than 10
values at least one of which passes the −70 gate, the integrated loudness is
the mean of exactly the above-gate values. -/
theorem integrated_gated_mean (s : StudioMetersState) (hg : s.gated = true)
    (hlen : 10 < s.lufsHistory.length)
    (hne : s.lufsHistory.filter (fun v => decide (-70 < v)) ≠ []) :
    (updateIntegrated s).lufsIntegrated =
      mean (s.lufsHistory.filter fun v => decide (-70 < v)) := by
  rw [updateIntegrated, if_pos ⟨hg, hlen⟩, if_neg hne]

/-- Witness for the amended C6 on a history of 11 values, 5 below the gate and
6 above: the integrated loudness is the mean of the 6 above-gate values. -/
theorem integrated_gated_mean_witness :
    stateElevenC6.gated = true ∧ 10 < stateElevenC6.lufsHistory.length ∧
    (updateIntegrated stateElevenC6).lufsIntegrated =
      mean (stateElevenC6.lufsHistory.filter fun v => decide (-70 < v)) :=
  ⟨by decide, by decide,
    integrated_gated_mean stateElevenC6 (by decide) (by decide) (by decide)⟩

/-- Claim C7 counterexample — the RMS of a nonempty all-zero block is
`20·log10(1e-10) = -200` dB, not the `-100` dB floor the claim states. -/
theorem rms_all_zero_not_neg_hundred :
    calculateRMS [(0 : ℝ)] = -200 ∧ ((-200 : ℝ) ≠ -100) := by
  constructor
  · rw [calculateRMS, if_neg (by simp)]
    have hsum : (([(0 : ℝ)].map fun x => x ^ 2).sum / ((1 : ℕ) : ℝ)) = 0 := by
      norm_num
    simp only [List.length_cons, List.length_nil, hsum]
    rw [Real.sqrt_zero, max_eq_right (by norm_num), logb_ten_eps]
    norm_num
  · norm_num

/-- Claim C7 (amended) — `_calculate_rms` returns the −100 floor only for an
empty block; a nonempty all-zero block yields `20·log10(1e-10) = -200` dB, and
a full-scale constant block of amplitude 1.0 yields exactly 0 dB. -/
theorem rms_floor_and_full_scale (n : ℕ) (hn : 0 < n) :
    calculateRMS ([] : List ℝ) = -100 ∧
    calculateRMS (List.replicate n (0 : ℝ)) = -200 ∧
    calculateRMS (List.replicate n (1 : ℝ)) = 0 := by
  have hne : ∀ x : ℝ, List.replicate n x ≠ [] := by
    intro x h
    have := congrArg List.length h
    simp at this
    omega
  have hnr : ((n : ℕ) : ℝ) ≠ 0 := by
    exact_mod_cast Nat.pos_iff_ne_zero.mp hn
  refine ⟨by rw [calculateRMS, if_pos rfl], ?_, ?_⟩
  · rw [calculateRMS, if_neg (hne 0)]
    have hmap : (List.replicate n (0 : ℝ)).map (fun x => x ^ 2) =
        List.replicate n (0 : ℝ) := by
      simp
    rw [hmap]
    simp only [List.sum_replicate, smul_zero, List.length_replicate, zero_div]
    rw [Real.sqrt_zero, max_eq_right (by norm_num), logb_ten_eps]
    norm_num
  · rw [calculateRMS, if_neg (hne 1)]
    have hmap : (List.replicate n (1 : ℝ)).map (fun x => x ^ 2) =
        List.replicate n (1 : ℝ) := by
      simp
    rw [hmap]
    simp only [List.sum_replicate, nsmul_eq_mul, mul_one, List.length_replicate]
    rw [div_self hnr, Real.sqrt_one, max_eq_left (by norm_num), Real.logb_one]
    norm_num

/-- Witness for the amended C7 on two-sample blocks. -/
theorem rms_floor_and_full_scale_witness :
    0 < 2 ∧ calculateRMS ([] : List ℝ) = -100 ∧
    calculateRMS (List.replicate 2 (0 : ℝ)) = -200 ∧
    calculateRMS (List.replicate 2 (1 : ℝ)) = 0 := by
  have h := rms_floor_and_full_scale 2 (by norm_num)
  exact ⟨by norm_num, h.1, h.2.1, h.2.2⟩

/-- Claim C8 counterexample — a weighting-mode change does not clear the
loudness history: cycling the weighting on a state with a nonempty history
leaves the history (and integrated value) untouched. -/
theorem cycleWeighting_keeps_history :
    (cycleWeighting stateHistC8).lufsHistory = stateHistC8.lufsHistory ∧
    (cycleWeighting stateHistC8).lufsHistory ≠ [] := by
  decide

/-- Claim C8 (amended) — every gating toggle clears the loudness history and
returns the integrated loudness to its −100 floor, and so does a manual reset;
a weighting-mode change leaves both the history and the integrated value
intact. -/
theorem meters_reset_behaviour (s : StudioMetersState) (b : Bool) :
    (toggleGating b s).lufsHistory = [] ∧
    (toggleGating b s).lufsIntegrated = -100 ∧
    (resetMeters s).lufsHistory = [] ∧
    (resetMeters s).lufsIntegrated = -100 ∧
    (cycleWeighting s).lufsHistory = s.lufsHistory ∧
    (cycleWeighting s).lufsIntegrated = s.lufsIntegrated :=
  ⟨rfl, rfl, rfl, rfl, rfl, rfl⟩

/-- Claim C9 — for every device index that is not enumerated or not
input-capable, `set_input_device` returns `False` and leaves the entire
manager state (in particular the current input device) unchanged. -/
theorem setInputDevice_rejects_invalid (st : AudioManagerState) (idx : ℕ)
    (h : isValidInputDevice st idx = false) :
    setInputDevice st idx = (st, false) := by
  unfold isValidInputDevice at h
  unfold setInputDevice
  cases hm : st.devices.lookup idx with
  | none => rfl
  | some d =>
    rw [hm] at h
    have hd : d.isInput = false := h
    simp [hd]

/-- Witness for C9: index 5 is not in the one-device enumeration, so the call
fails and the state is unchanged. -/
theorem setInputDevice_rejects_invalid_witness :
    isValidInputDevice amWithDevice 5 = false ∧
    setInputDevice amWithDevice 5 = (amWithDevice, false) :=
  ⟨by decide, setInputDevice_rejects_invalid amWithDevice 5 (by decide)⟩

/-- Claim C10 — for every nonempty block, the 4× linear-interpolation
oversampled peak is at most the plain maximum absolute sample value, so the
reported true peak in dB never exceeds `20·log10(max(maxAbs, 1e-10))`. -/
theorem true_peak_le_sample_peak (data : List ℝ) (hne : data ≠ []) :
    listMax (oversampledAbs data) ≤ sampleMaxAbs data ∧
    calculateTruePeak data ≤
      20 * Real.logb 10 (max (sampleMaxAbs data) (1 / 10 ^ 10)) := by
  have hlin : listMax (oversampledAbs data) ≤ sampleMaxAbs data := by
    have hlp : 0 < data.length := List.length_pos.mpr hne
    have hosne : oversampledAbs data ≠ [] := by
      rw [oversampledAbs]
      simp only [ne_eq, List.map_eq_nil_iff, List.range_eq_nil]
      omega
    apply listMax_le _ _ hosne
    intro y hy
    rw [oversampledAbs] at hy
    obtain ⟨k, _, rfl⟩ := List.mem_map.mp hy
    exact abs_interpAt_le data hne _
  refine ⟨hlin, ?_⟩
  rw [calculateTruePeak, if_neg hne]
  have hpos : (0 : ℝ) < max (listMax (oversampledAbs data)) (1 / 10 ^ 10) :=
    lt_of_lt_of_le (by norm_num) (le_max_right _ _)
  have hmle : max (listMax (oversampledAbs data)) (1 / 10 ^ 10) ≤
      max (sampleMaxAbs data) (1 / 10 ^ 10) := max_le_max hlin (le_refl _)
  have hlog := Real.logb_le_logb_of_le (by norm_num : (1 : ℝ) < 10) hpos hmle
  linarith

/-- Witness for C10 on the two-sample block `[1, -2]`. -/
theorem true_peak_le_sample_peak_witness :
    (([1, -2] : List ℝ) ≠ []) ∧
    (listMax (oversampledAbs [1, -2]) ≤ sampleMaxAbs [1, -2] ∧
     calculateTruePeak [1, -2] ≤
       20 * Real.logb 10 (max (sampleMaxAbs [1, -2]) (1 / 10 ^ 10))) :=
  ⟨by simp, true_peak_le_sample_peak [1, -2] (by simp)⟩

end Omega6
